import Mathlib

/-!
Shallow embedding of `cloud_chamber_gui.py`: the coordinate mapper
(`World.to_canvas`), the curve generators (`spiral`, `arc`), the scenario
catalog (`make_scenarios` with each scenario's draw routine rendered as
stroke data), and the quiz state machine of `GamePage`
(`new_round` / `on_submit` / `on_next`), with the random scenario pick
modelled by an oracle index into the catalog.
-/

namespace CloudChamber

/-- The seven radio-button choices (`CHOICES` in the source). -/
def CHOICES : List String :=
  ["electron (e−)",
   "positron (e+)",
   "muon (μ−)",
   "muon (μ+)",
   "photon (γ) → e⁺e⁻ pair",
   "proton (p)",
   "neutron (n) (no visible primary track)"]

/-- Logical world rectangle plus pixel margin (`class World`). Coordinates
are embedded as rationals (the Python code uses floats; all claims about
the mapper are exact algebraic identities). -/
structure World where
  xmin : ℚ
  xmax : ℚ
  ymin : ℚ
  ymax : ℚ
  margin : ℚ

/-- `World.to_canvas`: map world `(x, y)` to canvas `(X, Y)`;
y is up in world space, down in canvas space. -/
def World.to_canvas (w : World) (x y width height : ℚ) : ℚ × ℚ :=
  let W := width - 2 * w.margin
  let H := height - 2 * w.margin
  (w.margin + (x - w.xmin) / (w.xmax - w.xmin) * W,
   w.margin + (w.ymax - y) / (w.ymax - w.ymin) * H)

/-- The default world used by every page: `World()` = bounds −10..10,
margin 40. -/
def defaultWorld : World := ⟨-10, 10, -10, 10, 40⟩

/-- End angle `theta1` of the spiral parameterisation:
`start_angle + (2*pi*turns if ccw else -2*pi*turns)`. -/
noncomputable def spiralTheta1 (turns : ℝ) (ccw : Bool) (startAngle : ℝ) : ℝ :=
  startAngle + (if ccw then 2 * Real.pi * turns else -(2 * Real.pi * turns))

/-- Angle of sample `i` of the spiral: `th = theta0 + t*(theta1 - theta0)`
with `t = i/(npts-1)`. -/
noncomputable def spiralThetaAt (turns : ℝ) (ccw : Bool) (npts : ℕ) (startAngle : ℝ)
    (i : ℕ) : ℝ :=
  startAngle +
    ((i : ℝ) / ((npts : ℝ) - 1)) * (spiralTheta1 turns ccw startAngle - startAngle)

/-- Radius of sample `i` of the spiral: `r = r_start + t*(r_end - r_start)`
with `t = i/(npts-1)`. -/
noncomputable def spiralRAt (rStart rEnd : ℝ) (npts i : ℕ) : ℝ :=
  rStart + ((i : ℝ) / ((npts : ℝ) - 1)) * (rEnd - rStart)

/-- Sample `i` of the spiral: `(cx + r*cos th, cy + r*sin th)`. -/
noncomputable def spiralPoint (center : ℝ × ℝ) (rStart rEnd turns : ℝ) (ccw : Bool)
    (npts : ℕ) (startAngle : ℝ) (i : ℕ) : ℝ × ℝ :=
  (center.1 + spiralRAt rStart rEnd npts i *
      Real.cos (spiralThetaAt turns ccw npts startAngle i),
   center.2 + spiralRAt rStart rEnd npts i *
      Real.sin (spiralThetaAt turns ccw npts startAngle i))

/-- `spiral(center, r_start, r_end, turns, ccw, npts, start_angle)`:
Archimedean spiral polyline, `npts` samples for `i in range(npts)`. -/
noncomputable def spiral (center : ℝ × ℝ) (rStart rEnd turns : ℝ) (ccw : Bool)
    (npts : ℕ) (startAngle : ℝ) : List (ℝ × ℝ) :=
  (List.range npts).map (spiralPoint center rStart rEnd turns ccw npts startAngle)

/-- Effective end angle of the arc:
`th1 = angle_end if ccw else angle_start - (angle_end - angle_start)`. -/
def arcTheta1 (angleStart angleEnd : ℝ) (ccw : Bool) : ℝ :=
  if ccw then angleEnd else angleStart - (angleEnd - angleStart)

/-- Angle of sample `i` of the arc: `th = th0 + t*(th1 - th0)` with
`t = i/(npts-1)`. -/
noncomputable def arcThetaAt (angleStart angleEnd : ℝ) (ccw : Bool) (npts i : ℕ) : ℝ :=
  angleStart +
    ((i : ℝ) / ((npts : ℝ) - 1)) * (arcTheta1 angleStart angleEnd ccw - angleStart)

/-- Sample `i` of the arc: `(cx + radius*cos th, cy + radius*sin th)`. -/
noncomputable def arcPoint (center : ℝ × ℝ) (radius angleStart angleEnd : ℝ) (ccw : Bool)
    (npts i : ℕ) : ℝ × ℝ :=
  (center.1 + radius * Real.cos (arcThetaAt angleStart angleEnd ccw npts i),
   center.2 + radius * Real.sin (arcThetaAt angleStart angleEnd ccw npts i))

/-- `arc(center, radius, angle_start, angle_end, ccw, npts)`: fixed-radius
arc polyline, `npts` samples for `i in range(npts)`. -/
noncomputable def arc (center : ℝ × ℝ) (radius angleStart angleEnd : ℝ) (ccw : Bool)
    (npts : ℕ) : List (ℝ × ℝ) :=
  (List.range npts).map (arcPoint center radius angleStart angleEnd ccw npts)

/-- Line widths used by `make_scenarios`: `THIN, THICK = 2, 5`. -/
def THIN : ℕ := 2

/-- Heavy-ionization line width: `THICK = 5`. -/
def THICK : ℕ := 5

/-- `y0 = 0.0`: tracks start midpage. -/
def y0 : ℝ := 0.0

/-- One polyline handed to the canvas: its world-space points and the line
width passed to `polyline`. -/
structure Stroke where
  pts : List (ℝ × ℝ)
  width : ℕ

/-- Track strokes produced by `draw_eplus`: left tight spiral,
`spiral(center=(-3,0), 3.0→0.6, turns=3.2, ccw=True, npts=500,
start_angle=0.0)`, width `THIN`. -/
noncomputable def draw_eplus : List Stroke :=
  [⟨spiral (-3.0, y0) 3.0 0.6 3.2 true 500 0.0, THIN⟩]

/-- Track strokes produced by `draw_eminus`: right tight spiral,
`spiral(center=(3,0), 3.0→0.6, turns=3.2, ccw=False, start_angle=pi)`,
width `THIN`. -/
noncomputable def draw_eminus : List Stroke :=
  [⟨spiral (3.0, y0) 3.0 0.6 3.2 false 500 Real.pi, THIN⟩]

/-- Track strokes produced by `draw_muminus`:
`arc(center=(20,0), radius=20, pi→pi-0.5, ccw=False, npts=160)`,
width `THIN`. -/
noncomputable def draw_muminus : List Stroke :=
  [⟨arc (20.0, y0) 20.0 Real.pi (Real.pi - 0.5) false 160, THIN⟩]

/-- Track strokes produced by `draw_muplus`:
`arc(center=(-20,0), radius=20, 0→0.5, ccw=True, npts=160)`, width `THIN`. -/
noncomputable def draw_muplus : List Stroke :=
  [⟨arc (-20.0, y0) 20.0 0.0 0.5 true 160, THIN⟩]

/-- Track strokes produced by `draw_proton`: same arc as `draw_muplus`,
width `THICK`. -/
noncomputable def draw_proton : List Stroke :=
  [⟨arc (-20.0, y0) 20.0 0.0 0.5 true 160, THICK⟩]

/-- Track strokes produced by `draw_gamma_pair`: two radius-6 arcs from a
vertex at the origin (the vertex marker dot is not a track stroke). -/
noncomputable def draw_gamma_pair : List Stroke :=
  [⟨arc (0.0 - 6.0, 0.0) 6.0 0.0 0.9 true 120, THIN⟩,
   ⟨arc (0.0 + 6.0, 0.0) 6.0 Real.pi (Real.pi - 0.9) false 120, THIN⟩]

/-- Track strokes produced by `draw_neutron`: the body is `pass`, so no
stroke is produced. -/
def draw_neutron : List Stroke := []

/-- All world-space track points of a draw routine's strokes. -/
def trackPoints (strokes : List Stroke) : List (ℝ × ℝ) :=
  (strokes.map Stroke.pts).flatten

/-- The `tags` dict of a scenario: sign, curvature class, ionization class,
optional special flag. -/
structure Tags where
  sign : String
  curv : String
  ion : String
  special : Option String
deriving DecidableEq

/-- The data part of one scenario dict: `answer`, `explain`, `tags` (the
`draw` closure is modelled separately as stroke data, see `draw_eplus`
etc.). -/
structure Scenario where
  answer : String
  explain : String
  tags : Tags
deriving DecidableEq

/-- `make_scenarios()`: the fixed seven-scenario catalog, in source order. -/
def make_scenarios : List Scenario :=
  [{ answer := "positron (e+)",
     explain := "Left-curving tight spiral ⇒ low-p, positive, light → e⁺.",
     tags := { sign := "+", curv := "tight", ion := "faint", special := none } },
   { answer := "electron (e−)",
     explain := "Right-curving tight spiral ⇒ low-p, negative, very light → e⁻.",
     tags := { sign := "-", curv := "tight", ion := "faint", special := none } },
   { answer := "muon (μ−)",
     explain := "Long gentle right arc; thin ionization → high-p negative MIP → μ⁻.",
     tags := { sign := "-", curv := "gentle", ion := "thin", special := none } },
   { answer := "muon (μ+)",
     explain := "Long gentle left arc; thin ionization → high-p positive MIP → μ⁺.",
     tags := { sign := "+", curv := "gentle", ion := "thin", special := none } },
   { answer := "proton (p)",
     explain := "Left gentle arc with heavy dE/dx (thick) → slow heavy positive → proton.",
     tags := { sign := "+", curv := "gentle", ion := "thick", special := none } },
   { answer := "photon (γ) → e⁺e⁻ pair",
     explain := "No incoming track; displaced V with opposite-curving faint arms → γ conversion to e⁺e⁻.",
     tags := { sign := "0", curv := "pair", ion := "faint", special := some "conversion" } },
   { answer := "neutron (n) (no visible primary track)",
     explain := "No charged track; neutral particle. (Sometimes a short recoil stub.)",
     tags := { sign := "0", curv := "none", ion := "none", special := none } }]

/-- The mutable quiz state of `GamePage`: `current`, `rounds`, `score`,
`answered`, the radio selection `choice_var`, and the feedback text widget
content `msg`. -/
structure GameState where
  current : Option Scenario
  rounds : ℕ
  score : ℕ
  answered : Bool
  choice : String
  msg : String
deriving DecidableEq

/-- The prompt `new_round` writes into the message area. -/
def roundMsg : String :=
  "Pick the particle based on curvature (sign), radius (momentum), and line width (dE/dx)."

/-- `GamePage.new_round`: reset `answered`, clear the selection, reset the
message, pick a scenario (`random.choice(self.scenarios)` modelled by the
oracle index `k` into the catalog). -/
def new_round (k : ℕ) (s : GameState) : GameState :=
  { s with answered := false,
           choice := "",
           msg := roundMsg,
           current := make_scenarios[k % make_scenarios.length]? }

/-- The verdict line: `"✓ Correct!" if correct else "✗ Not quite."`. -/
def verdictText (correct : Bool) : String :=
  if correct then "✓ Correct!" else "✗ Not quite."

/-- The `tag_bits` list composed by `on_submit` (and `show_example`). -/
def tagBits (t : Tags) : List String :=
  if t.special = some "conversion" then
    ["conversion V with opposite curvature"]
  else
    (if t.sign = "+" ∨ t.sign = "-" then
      ["turns " ++ (if t.sign = "+" then "left (+)" else "right (−)")]
     else if t.sign = "0" then ["neutral (no primary)"] else [])
    ++ [t.curv ++ " curvature"]
    ++ (if t.ion ≠ "none" then [t.ion ++ " ionization"] else [])

/-- The feedback text composed by `on_submit`:
`f"Answer: {answer}\n\n{verdict}\n\nReasoning: {explain}\n\nClues: {tag_bits}"`. -/
def feedbackText (cur : Scenario) (correct : Bool) : String :=
  "Answer: " ++ cur.answer ++ "\n\n" ++ verdictText correct ++ "\n\n" ++
  "Reasoning: " ++ cur.explain ++ "\n\n" ++
  "Clues: " ++ String.intercalate ", " (tagBits cur.tags)

/-- `GamePage.on_submit`. Returns `none` only when the Python code would
raise (subscripting `self.current` while it is `None`); otherwise `some` of
the next state. Early-returns leave the state untouched. -/
def on_submit (s : GameState) : Option GameState :=
  if s.answered then some s
  else if s.choice = "" then some s
  else
    s.current.map fun cur =>
      let correct : Bool := s.choice == cur.answer
      { s with rounds := s.rounds + 1,
               score := if correct then s.score + 1 else s.score,
               answered := true,
               msg := feedbackText cur correct }

/-- User-driven transitions of the game screen: `new_round` (with its
oracle pick), selecting a radio choice, Submit, and Next (with the pick its
`new_round` call will make). -/
inductive Action where
  | newRound (k : ℕ)
  | select (sel : String)
  | submit
  | next (k : ℕ)

/-- One event-handler invocation. `on_next` just calls `new_round`. -/
def step : Action → GameState → Option GameState
  | Action.newRound k, s => some (new_round k s)
  | Action.select sel, s => some { s with choice := sel }
  | Action.submit, s => on_submit s
  | Action.next k, s => some (new_round k s)

/-- Run a sequence of events from a state. -/
def run : List Action → GameState → Option GameState
  | [], s => some s
  | a :: rest, s => (step a s).bind (run rest)

/-- The state right after `GamePage.__init__`: counters zeroed, `current`
`None`, then the constructor's `self.new_round()` call with oracle pick
`k`. -/
def initGame (k : ℕ) : GameState :=
  new_round k ⟨none, 0, 0, false, "", ""⟩

end CloudChamber

namespace CloudChamber

/-- Helper: `on_submit` returns early when the round is already answered. -/
theorem on_submit_answered (s : GameState) (h : s.answered = true) :
    on_submit s = some s := by
  simp [on_submit, h]

/-- Helper: `on_submit` returns early when no choice is selected. -/
theorem on_submit_empty (s : GameState) (h : s.choice = "") :
    on_submit s = some s := by
  by_cases ha : s.answered = true
  · simp [on_submit, ha]
  · simp [on_submit, ha, h]

/-- Helper: the state produced by an actual submission. -/
theorem on_submit_eq (s : GameState) (cur : Scenario)
    (h1 : s.answered = false) (h2 : ¬ s.choice = "") (h3 : s.current = some cur) :
    on_submit s = some
      { s with rounds := s.rounds + 1,
               score := if s.choice == cur.answer then s.score + 1 else s.score,
               answered := true,
               msg := feedbackText cur (s.choice == cur.answer) } := by
  simp [on_submit, h1, h2, h3]

end CloudChamber

namespace CloudChamber

/-- C3: `on_submit` is a no-op on the quiz state (score, rounds, answered,
current scenario — indeed the whole state — unchanged) whenever the round
is already answered or the selection is the empty string; the empty-selection
prompt is a message box, not a state change. -/
theorem submit_noop_when_answered_or_empty (s : GameState) :
    (s.answered = true → on_submit s = some s) ∧
    (s.choice = "" → on_submit s = some s) :=
  ⟨fun h => on_submit_answered s h, fun h => on_submit_empty s h⟩

/-- The proton scenario record (index 4 of `make_scenarios`). -/
def protonScenario : Scenario :=
  { answer := "proton (p)",
    explain := "Left gentle arc with heavy dE/dx (thick) → slow heavy positive → proton.",
    tags := { sign := "+", curv := "gentle", ion := "thick", special := none } }

/-- A state in which the current round was already answered. -/
def demoAnsweredState : GameState :=
  { current := some protonScenario, rounds := 1, score := 1, answered := true,
    choice := "proton (p)", msg := "" }

/-- A fresh-round state with no selection made. -/
def demoEmptyChoiceState : GameState :=
  { current := some protonScenario, rounds := 0, score := 0, answered := false,
    choice := "", msg := roundMsg }

/-- Witness for C3: concrete no-op submissions (already answered, and empty
selection). -/
theorem submit_noop_when_answered_or_empty_witness :
    (demoAnsweredState.answered = true ∧
      on_submit demoAnsweredState = some demoAnsweredState) ∧
    (demoEmptyChoiceState.choice = "" ∧
      on_submit demoEmptyChoiceState = some demoEmptyChoiceState) :=
  ⟨⟨rfl, (submit_noop_when_answered_or_empty demoAnsweredState).1 rfl⟩,
   ⟨rfl, (submit_noop_when_answered_or_empty demoEmptyChoiceState).2 rfl⟩⟩

/-- C4: `make_scenarios` returns exactly 7 scenarios, with pairwise
distinct answer labels whose set is exactly the canonical answer set
`CHOICES`. -/
theorem catalog_answers_canonical :
    make_scenarios.length = 7 ∧
    (make_scenarios.map Scenario.answer).Nodup ∧
    List.Perm (make_scenarios.map Scenario.answer) CHOICES := by
  refine ⟨rfl, by decide, by decide⟩

/-- C8: `draw_proton` and `draw_muplus` generate identical world-space
point sequences — the arc centered at (−20, 0), radius 20, angles 0 to 0.5
counterclockwise, 160 samples — and differ only in the line width
(`THICK` for the proton, `THIN` for μ+). -/
theorem proton_muplus_same_geometry :
    draw_proton.map Stroke.pts = draw_muplus.map Stroke.pts ∧
    draw_muplus.map Stroke.pts = [arc (-20.0, 0.0) 20.0 0.0 0.5 true 160] ∧
    draw_proton.map Stroke.width = [THICK] ∧
    draw_muplus.map Stroke.width = [THIN] ∧
    THIN ≠ THICK :=
  ⟨rfl, rfl, rfl, rfl, by decide⟩

/-- C9: `draw_neutron` produces zero track points: it emits no strokes, so
the set of track points drawn for the neutron scenario is empty. -/
theorem neutron_draws_nothing :
    draw_neutron = ([] : List Stroke) ∧ trackPoints draw_neutron = [] :=
  ⟨rfl, rfl⟩

/-- C5: for all world bounds with `xmax > xmin`, `ymax > ymin`, any margin
and canvas size, `to_canvas` is affine (linear in x and in y independently
plus an offset), maps the four viewport corners to the four corners of the
margin-inset pixel rectangle, and computes pixel Y as
`margin + (ymax - y)/(ymax - ymin) * innerHeight`, flipping the vertical
axis. -/
theorem to_canvas_affine_corners (w : World) (width height : ℚ)
    (hx : w.xmin < w.xmax) (hy : w.ymin < w.ymax) :
    (∃ a b c d : ℚ, ∀ x y : ℚ,
        w.to_canvas x y width height = (a * x + b, c * y + d)) ∧
    w.to_canvas w.xmin w.ymax width height = (w.margin, w.margin) ∧
    w.to_canvas w.xmax w.ymin width height = (width - w.margin, height - w.margin) ∧
    w.to_canvas w.xmin w.ymin width height = (w.margin, height - w.margin) ∧
    w.to_canvas w.xmax w.ymax width height = (width - w.margin, w.margin) ∧
    ∀ x y : ℚ, (w.to_canvas x y width height).2 =
      w.margin + (w.ymax - y) / (w.ymax - w.ymin) * (height - 2 * w.margin) := by
  have hdx : w.xmax - w.xmin ≠ 0 := sub_ne_zero.mpr (ne_of_gt hx)
  have hdy : w.ymax - w.ymin ≠ 0 := sub_ne_zero.mpr (ne_of_gt hy)
  refine ⟨⟨(width - 2 * w.margin) / (w.xmax - w.xmin),
          w.margin - w.xmin * ((width - 2 * w.margin) / (w.xmax - w.xmin)),
          -((height - 2 * w.margin) / (w.ymax - w.ymin)),
          w.margin + w.ymax * ((height - 2 * w.margin) / (w.ymax - w.ymin)),
          fun x y => ?_⟩, ?_, ?_, ?_, ?_, fun x y => rfl⟩ <;>
    simp only [World.to_canvas, Prod.mk.injEq] <;>
    constructor <;> field_simp <;> ring

/-- Witness for C5: the default world (−10..10, margin 40) on the game
canvas size 720×680. -/
theorem to_canvas_affine_corners_witness :
    (defaultWorld.xmin < defaultWorld.xmax ∧ defaultWorld.ymin < defaultWorld.ymax) ∧
    defaultWorld.to_canvas (-10) 10 720 680 = (40, 40) ∧
    defaultWorld.to_canvas 10 (-10) 720 680 = (680, 640) ∧
    ((∃ a b c d : ℚ, ∀ x y : ℚ,
        defaultWorld.to_canvas x y 720 680 = (a * x + b, c * y + d)) ∧
     defaultWorld.to_canvas defaultWorld.xmin defaultWorld.ymax 720 680 =
        (defaultWorld.margin, defaultWorld.margin) ∧
     defaultWorld.to_canvas defaultWorld.xmax defaultWorld.ymin 720 680 =
        (720 - defaultWorld.margin, 680 - defaultWorld.margin) ∧
     defaultWorld.to_canvas defaultWorld.xmin defaultWorld.ymin 720 680 =
        (defaultWorld.margin, 680 - defaultWorld.margin) ∧
     defaultWorld.to_canvas defaultWorld.xmax defaultWorld.ymax 720 680 =
        (720 - defaultWorld.margin, defaultWorld.margin) ∧
     ∀ x y : ℚ, (defaultWorld.to_canvas x y 720 680).2 =
        defaultWorld.margin + (defaultWorld.ymax - y) /
          (defaultWorld.ymax - defaultWorld.ymin) * (680 - 2 * defaultWorld.margin)) :=
  ⟨⟨by norm_num [defaultWorld], by norm_num [defaultWorld]⟩,
   by norm_num [defaultWorld, World.to_canvas],
   by norm_num [defaultWorld, World.to_canvas],
   to_canvas_affine_corners defaultWorld 720 680 (by norm_num [defaultWorld])
     (by norm_num [defaultWorld])⟩

/-- C1: a submission made while `answered` is false with a non-empty
selection increments `rounds` by 1, increments `score` by 1 exactly when
the selection equals the current scenario's answer (string equality),
sets `answered` to true, and the composed feedback text contains the
scenario's explanation string. -/
theorem submit_scores_and_feedback (s : GameState) (cur : Scenario)
    (h1 : s.answered = false) (h2 : s.choice ≠ "") (h3 : s.current = some cur) :
    ∃ s2, on_submit s = some s2 ∧
      s2.rounds = s.rounds + 1 ∧
      s2.score = s.score + (if s.choice = cur.answer then 1 else 0) ∧
      s2.answered = true ∧
      ∃ p q, s2.msg = p ++ cur.explain ++ q := by
  refine ⟨_, on_submit_eq s cur h1 h2 h3, rfl, ?_, rfl, ?_⟩
  · by_cases hc : s.choice = cur.answer <;> simp [hc]
  · exact ⟨"Answer: " ++ cur.answer ++ "\n\n" ++
        verdictText (s.choice == cur.answer) ++ "\n\n" ++ "Reasoning: ",
      "\n\n" ++ "Clues: " ++ String.intercalate ", " (tagBits cur.tags),
      by simp [feedbackText, String.append_assoc]⟩

/-- The state right before the submission of the C1 witness: proton round,
proton selected. -/
def demoSubmitState : GameState :=
  { current := some protonScenario, rounds := 0, score := 0, answered := false,
    choice := "proton (p)", msg := roundMsg }

/-- Witness for C1: submitting "proton (p)" on the proton round gives
rounds 1, score 1, answered, and feedback containing the proton
explanation. -/
theorem submit_scores_and_feedback_witness :
    (demoSubmitState.answered = false ∧ demoSubmitState.choice ≠ "" ∧
      demoSubmitState.current = some protonScenario) ∧
    ∃ s2, on_submit demoSubmitState = some s2 ∧
      s2.rounds = demoSubmitState.rounds + 1 ∧
      s2.score = demoSubmitState.score +
        (if demoSubmitState.choice = protonScenario.answer then 1 else 0) ∧
      s2.answered = true ∧
      ∃ p q, s2.msg = p ++ protonScenario.explain ++ q :=
  ⟨⟨rfl, by decide, rfl⟩,
   submit_scores_and_feedback demoSubmitState protonScenario rfl (by decide) rfl⟩

end CloudChamber

namespace CloudChamber

/-- Helper: one successful event-handler invocation leaves both counters
non-decreasing and preserves `score ≤ rounds`. -/
theorem step_counters (a : Action) (s s2 : GameState) (h : step a s = some s2) :
    s.score ≤ s2.score ∧ s.rounds ≤ s2.rounds ∧
      (s.score ≤ s.rounds → s2.score ≤ s2.rounds) := by
  cases a with
  | newRound k =>
      simp only [step, Option.some.injEq] at h
      subst h
      exact ⟨le_refl _, le_refl _, fun hi => hi⟩
  | select sel =>
      simp only [step, Option.some.injEq] at h
      subst h
      exact ⟨le_refl _, le_refl _, fun hi => hi⟩
  | next k =>
      simp only [step, Option.some.injEq] at h
      subst h
      exact ⟨le_refl _, le_refl _, fun hi => hi⟩
  | submit =>
      simp only [step] at h
      by_cases h1 : s.answered = true
      · rw [on_submit_answered s h1] at h
        cases Option.some.inj h
        exact ⟨le_refl _, le_refl _, fun hi => hi⟩
      · rw [Bool.not_eq_true] at h1
        by_cases h2 : s.choice = ""
        · rw [on_submit_empty s h2] at h
          cases Option.some.inj h
          exact ⟨le_refl _, le_refl _, fun hi => hi⟩
        · cases hc : s.current with
          | none =>
              rw [on_submit, if_neg (by simp [h1]), if_neg h2, hc] at h
              simp at h
          | some cur =>
              rw [on_submit_eq s cur h1 h2 hc] at h
              cases Option.some.inj h
              refine ⟨?_, ?_, fun hi => ?_⟩
              · show s.score ≤
                  if (s.choice == cur.answer) = true then s.score + 1 else s.score
                split <;> omega
              · show s.rounds ≤ s.rounds + 1
                omega
              · show (if (s.choice == cur.answer) = true then s.score + 1 else s.score)
                  ≤ s.rounds + 1
                split <;> omega

/-- Helper: `run` distributes over concatenation of event sequences. -/
theorem run_append (l1 l2 : List Action) (s : GameState) :
    run (l1 ++ l2) s = (run l1 s).bind (run l2) := by
  induction l1 generalizing s with
  | nil => simp [run]
  | cons a rest ih =>
      cases hs : step a s with
      | none => simp [run, hs]
      | some s1 => simp [run, hs, ih]

/-- Helper: counters never decrease along a run and `score ≤ rounds` is
preserved. -/
theorem run_counters (l : List Action) (s s2 : GameState) (h : run l s = some s2) :
    s.score ≤ s2.score ∧ s.rounds ≤ s2.rounds ∧
      (s.score ≤ s.rounds → s2.score ≤ s2.rounds) := by
  induction l generalizing s with
  | nil =>
      simp only [run, Option.some.injEq] at h
      subst h
      exact ⟨le_refl _, le_refl _, fun hi => hi⟩
  | cons a rest ih =>
      simp only [run] at h
      cases hs : step a s with
      | none => rw [hs] at h; simp at h
      | some s1 =>
          rw [hs, Option.some_bind] at h
          obtain ⟨p1, p2, p3⟩ := step_counters a s s1 hs
          obtain ⟨q1, q2, q3⟩ := ih s1 h
          exact ⟨le_trans p1 q1, le_trans p2 q2, fun hi => q3 (p3 hi)⟩

/-- C2: from a freshly opened game screen, `0 ≤ score ≤ rounds` holds after
any sequence of calls, and both counters are monotonically non-decreasing
across any extension of the sequence. -/
theorem score_le_rounds_monotone (k : ℕ) (acts : List Action) (s2 : GameState)
    (h : run acts (initGame k) = some s2) :
    (0 ≤ s2.score ∧ s2.score ≤ s2.rounds) ∧
    ∀ more s3, run (acts ++ more) (initGame k) = some s3 →
      s2.score ≤ s3.score ∧ s2.rounds ≤ s3.rounds := by
  have hbase : (initGame k).score ≤ (initGame k).rounds := Nat.le_refl 0
  obtain ⟨-, -, p3⟩ := run_counters acts (initGame k) s2 h
  refine ⟨⟨Nat.zero_le _, p3 hbase⟩, fun more s3 h3 => ?_⟩
  rw [run_append, h, Option.some_bind] at h3
  obtain ⟨q1, q2, -⟩ := run_counters more s2 s3 h3
  exact ⟨q1, q2⟩

/-- The state after forcing the proton round, selecting "proton (p)" and
submitting. -/
def demoFinalState : GameState :=
  { current := some protonScenario, rounds := 1, score := 1, answered := true,
    choice := "proton (p)", msg := feedbackText protonScenario true }

set_option maxRecDepth 40000 in
/-- Witness for C2: a concrete run (select proton, submit) reaching
score 1 of rounds 1. -/
theorem score_le_rounds_monotone_witness :
    run [Action.select "proton (p)", Action.submit] (initGame 4) = some demoFinalState ∧
    (0 ≤ demoFinalState.score ∧ demoFinalState.score ≤ demoFinalState.rounds) :=
  ⟨by decide,
   (score_le_rounds_monotone 4 [Action.select "proton (p)", Action.submit]
      demoFinalState (by decide)).1⟩

/-- Helper: `new_round` always installs one of the catalog's scenarios. -/
theorem new_round_current (k : ℕ) (s : GameState) :
    ∃ cur, (new_round k s).current = some cur ∧ cur ∈ make_scenarios := by
  have hlt : k % make_scenarios.length < make_scenarios.length := by
    have hlen : make_scenarios.length = 7 := rfl
    rw [hlen]
    exact Nat.mod_lt _ (by norm_num)
  exact ⟨make_scenarios[k % make_scenarios.length],
    List.getElem?_eq_getElem hlt, List.getElem_mem hlt⟩

/-- Helper: every successful event handler keeps the current scenario a
catalog entry. -/
theorem step_current (a : Action) (s s2 : GameState) (h : step a s = some s2)
    (hs : ∃ cur, s.current = some cur ∧ cur ∈ make_scenarios) :
    ∃ cur, s2.current = some cur ∧ cur ∈ make_scenarios := by
  cases a with
  | newRound k =>
      simp only [step, Option.some.injEq] at h
      subst h
      exact new_round_current k s
  | select sel =>
      simp only [step, Option.some.injEq] at h
      subst h
      exact hs
  | next k =>
      simp only [step, Option.some.injEq] at h
      subst h
      exact new_round_current k s
  | submit =>
      simp only [step] at h
      by_cases h1 : s.answered = true
      · rw [on_submit_answered s h1] at h
        cases Option.some.inj h
        exact hs
      · rw [Bool.not_eq_true] at h1
        by_cases h2 : s.choice = ""
        · rw [on_submit_empty s h2] at h
          cases Option.some.inj h
          exact hs
        · obtain ⟨cur, hc, hmem⟩ := hs
          rw [on_submit_eq s cur h1 h2 hc] at h
          cases Option.some.inj h
          exact ⟨cur, hc, hmem⟩

/-- Helper: the catalog-membership invariant survives any run. -/
theorem run_current (l : List Action) (s s2 : GameState) (h : run l s = some s2)
    (hs : ∃ cur, s.current = some cur ∧ cur ∈ make_scenarios) :
    ∃ cur, s2.current = some cur ∧ cur ∈ make_scenarios := by
  induction l generalizing s with
  | nil =>
      simp only [run, Option.some.injEq] at h
      subst h
      exact hs
  | cons a rest ih =>
      simp only [run] at h
      cases hstep : step a s with
      | none => rw [hstep] at h; simp at h
      | some s1 =>
          rw [hstep, Option.some_bind] at h
          exact ih s1 h (step_current a s s1 hstep hs)

/-- Helper: `on_submit` never hits the `None` scenario access as long as a
catalog scenario is current. -/
theorem on_submit_isSome (s : GameState)
    (hs : ∃ cur, s.current = some cur ∧ cur ∈ make_scenarios) :
    (on_submit s).isSome = true := by
  obtain ⟨cur, hc, -⟩ := hs
  by_cases h1 : s.answered = true
  · rw [on_submit_answered s h1]; rfl
  · rw [Bool.not_eq_true] at h1
    by_cases h2 : s.choice = ""
    · rw [on_submit_empty s h2]; rfl
    · rw [on_submit_eq s cur h1 h2 hc]; rfl

/-- C10: after the game screen's construction (which runs the first
`new_round`), the current scenario is always one of the 7 catalog entries,
never the initial `None`; every call preserves this, so `on_submit`'s
access to the current scenario is always well-defined. -/
theorem current_scenario_well_defined (k : ℕ) (acts : List Action)
    (s2 : GameState) (h : run acts (initGame k) = some s2) :
    (∃ cur, s2.current = some cur ∧ cur ∈ make_scenarios) ∧
    (on_submit s2).isSome = true := by
  have hinit : ∃ cur, (initGame k).current = some cur ∧ cur ∈ make_scenarios :=
    new_round_current k ⟨none, 0, 0, false, "", ""⟩
  have hcur := run_current acts (initGame k) s2 h hinit
  exact ⟨hcur, on_submit_isSome s2 hcur⟩

/-- The neutron scenario record (index 6 of `make_scenarios`). -/
def neutronScenario : Scenario :=
  { answer := "neutron (n) (no visible primary track)",
    explain := "No charged track; neutral particle. (Sometimes a short recoil stub.)",
    tags := { sign := "0", curv := "none", ion := "none", special := none } }

/-- The state after opening the game on the positron round and pressing
Next onto the neutron round. -/
def demoC10State : GameState :=
  { current := some neutronScenario,
    rounds := 0, score := 0, answered := false, choice := "", msg := roundMsg }

set_option maxRecDepth 40000 in
/-- Witness for C10: a concrete run ending on the neutron round, whose
current scenario is a catalog entry and on which submit is well-defined. -/
theorem current_scenario_well_defined_witness :
    run [Action.next 6] (initGame 0) = some demoC10State ∧
    ((∃ cur, demoC10State.current = some cur ∧ cur ∈ make_scenarios) ∧
     (on_submit demoC10State).isSome = true) :=
  ⟨by decide, current_scenario_well_defined 0 [Action.next 6] demoC10State (by decide)⟩

end CloudChamber

namespace CloudChamber

/-- Helper: a point `center + r*(cos θ, sin θ)` lies at distance `r ≥ 0`
from the center. -/
theorem dist_of_polar (cx cy r θ : ℝ) (hr : 0 ≤ r) :
    Real.sqrt ((cx + r * Real.cos θ - cx) ^ 2 + (cy + r * Real.sin θ - cy) ^ 2) = r := by
  have h1 : cx + r * Real.cos θ - cx = r * Real.cos θ := by ring
  have h2 : cy + r * Real.sin θ - cy = r * Real.sin θ := by ring
  rw [h1, h2]
  have h3 : (r * Real.cos θ) ^ 2 + (r * Real.sin θ) ^ 2 = r ^ 2 := by
    linear_combination r ^ 2 * Real.sin_sq_add_cos_sq θ
  rw [h3, Real.sqrt_sq hr]

/-- C6: for sample counts ≥ 2 (count 1 is an unsupported precondition) and
nonnegative radii, the spiral returns exactly `npts` points, the first at
distance `rStart` from the center, the last at distance `rEnd`, and the
angle swept from the first to the last sample is `2π·turns`, positive for
counterclockwise and negative for clockwise. -/
theorem spiral_endpoints_and_sweep (center : ℝ × ℝ) (rStart rEnd turns : ℝ)
    (ccw : Bool) (npts : ℕ) (startAngle : ℝ)
    (hn : 2 ≤ npts) (h0 : 0 ≤ rStart) (h1 : 0 ≤ rEnd) :
    (spiral center rStart rEnd turns ccw npts startAngle).length = npts ∧
    (∃ p0, (spiral center rStart rEnd turns ccw npts startAngle).head? = some p0 ∧
      Real.sqrt ((p0.1 - center.1) ^ 2 + (p0.2 - center.2) ^ 2) = rStart) ∧
    (∃ pl, (spiral center rStart rEnd turns ccw npts startAngle).getLast? = some pl ∧
      Real.sqrt ((pl.1 - center.1) ^ 2 + (pl.2 - center.2) ^ 2) = rEnd) ∧
    spiralThetaAt turns ccw npts startAngle (npts - 1) -
        spiralThetaAt turns ccw npts startAngle 0 =
      (if ccw then 2 * Real.pi * turns else -(2 * Real.pi * turns)) := by
  obtain ⟨m, rfl⟩ : ∃ m, npts = m + 1 := ⟨npts - 1, by omega⟩
  have hm : 1 ≤ m := by omega
  have hmR : ((m : ℝ)) ≠ 0 := by
    have hpos : (0 : ℝ) < (m : ℝ) := by exact_mod_cast hm
    exact ne_of_gt hpos
  have hcast : ((m + 1 : ℕ) : ℝ) - 1 = (m : ℝ) := by push_cast; ring
  have hhead : (spiral center rStart rEnd turns ccw (m + 1) startAngle).head? =
      some (spiralPoint center rStart rEnd turns ccw (m + 1) startAngle 0) := by
    rw [spiral, List.range_succ_eq_map]
    rfl
  have hlast : (spiral center rStart rEnd turns ccw (m + 1) startAngle).getLast? =
      some (spiralPoint center rStart rEnd turns ccw (m + 1) startAngle m) := by
    rw [spiral, List.range_succ, List.map_append]
    simp
  have hr0 : spiralRAt rStart rEnd (m + 1) 0 = rStart := by
    simp [spiralRAt]
  have hrm : spiralRAt rStart rEnd (m + 1) m = rEnd := by
    rw [spiralRAt, hcast, div_self hmR]
    ring
  have hidx : m + 1 - 1 = m := by omega
  refine ⟨by simp [spiral], ⟨_, hhead, ?_⟩, ⟨_, hlast, ?_⟩, ?_⟩
  · simp only [spiralPoint]
    rw [hr0]
    exact dist_of_polar center.1 center.2 rStart _ h0
  · simp only [spiralPoint]
    rw [hrm]
    exact dist_of_polar center.1 center.2 rEnd _ h1
  · rw [hidx]
    simp only [spiralThetaAt, spiralTheta1]
    rw [hcast, div_self hmR, Nat.cast_zero]
    ring

/-- Witness for C6: the positron spiral call
`spiral(center=(-3,0), 3.0→0.6, turns=3.2, ccw=True, npts=500)`. -/
theorem spiral_endpoints_and_sweep_witness :
    ((2 : ℕ) ≤ 500 ∧ (0 : ℝ) ≤ 3.0 ∧ (0 : ℝ) ≤ 0.6) ∧
    ((spiral (-3.0, 0.0) 3.0 0.6 3.2 true 500 0.0).length = 500 ∧
     (∃ p0, (spiral (-3.0, 0.0) 3.0 0.6 3.2 true 500 0.0).head? = some p0 ∧
       Real.sqrt ((p0.1 - (-3.0, 0.0).1) ^ 2 + (p0.2 - (-3.0, 0.0).2) ^ 2) = 3.0) ∧
     (∃ pl, (spiral (-3.0, 0.0) 3.0 0.6 3.2 true 500 0.0).getLast? = some pl ∧
       Real.sqrt ((pl.1 - (-3.0, 0.0).1) ^ 2 + (pl.2 - (-3.0, 0.0).2) ^ 2) = 0.6) ∧
     spiralThetaAt 3.2 true 500 0.0 (500 - 1) - spiralThetaAt 3.2 true 500 0.0 0 =
       2 * Real.pi * 3.2) :=
  ⟨⟨by norm_num, by norm_num, by norm_num⟩,
   spiral_endpoints_and_sweep (-3.0, 0.0) 3.0 0.6 3.2 true 500 0.0
     (by norm_num) (by norm_num) (by norm_num)⟩

/-- C7: for sample counts ≥ 2, every arc point lies at exactly `radius`
from the center, consecutive sample angles differ by the constant
`(th1 - th0)/(npts - 1)` (linear spacing), and the sweep runs from the
start angle to `angle_end` when counterclockwise but to
`angle_start - (angle_end - angle_start)` when clockwise. -/
theorem arc_radius_spacing_sweep (center : ℝ × ℝ) (radius angleStart angleEnd : ℝ)
    (ccw : Bool) (npts : ℕ) (hn : 2 ≤ npts) (hr : 0 ≤ radius) :
    (∀ p ∈ arc center radius angleStart angleEnd ccw npts,
      Real.sqrt ((p.1 - center.1) ^ 2 + (p.2 - center.2) ^ 2) = radius) ∧
    (∀ i : ℕ, arcThetaAt angleStart angleEnd ccw npts (i + 1) -
        arcThetaAt angleStart angleEnd ccw npts i =
      (arcTheta1 angleStart angleEnd ccw - angleStart) / ((npts : ℝ) - 1)) ∧
    arcThetaAt angleStart angleEnd ccw npts 0 = angleStart ∧
    arcThetaAt angleStart angleEnd ccw npts (npts - 1) =
      arcTheta1 angleStart angleEnd ccw ∧
    (ccw = true → arcTheta1 angleStart angleEnd ccw = angleEnd) ∧
    (ccw = false → arcTheta1 angleStart angleEnd ccw =
      angleStart - (angleEnd - angleStart)) := by
  obtain ⟨m, rfl⟩ : ∃ m, npts = m + 1 := ⟨npts - 1, by omega⟩
  have hm : 1 ≤ m := by omega
  have hmR : ((m : ℝ)) ≠ 0 := by
    have hpos : (0 : ℝ) < (m : ℝ) := by exact_mod_cast hm
    exact ne_of_gt hpos
  have hcast : ((m + 1 : ℕ) : ℝ) - 1 = (m : ℝ) := by push_cast; ring
  have hidx : m + 1 - 1 = m := by omega
  refine ⟨?_, ?_, ?_, ?_, ?_, ?_⟩
  · intro p hp
    rw [arc] at hp
    obtain ⟨i, -, rfl⟩ := List.mem_map.mp hp
    simp only [arcPoint]
    exact dist_of_polar center.1 center.2 radius _ hr
  · intro i
    simp only [arcThetaAt]
    push_cast
    ring
  · simp [arcThetaAt]
  · rw [hidx]
    simp only [arcThetaAt]
    rw [hcast, div_self hmR]
    ring
  · intro h
    rw [h, arcTheta1]
    rfl
  · intro h
    rw [h, arcTheta1]
    rfl

/-- Witness for C7: the μ+/proton arc call
`arc(center=(-20,0), radius=20, 0→0.5, ccw=True, npts=160)`. -/
theorem arc_radius_spacing_sweep_witness :
    ((2 : ℕ) ≤ 160 ∧ (0 : ℝ) ≤ 20.0) ∧
    ((∀ p ∈ arc (-20.0, 0.0) 20.0 0.0 0.5 true 160,
       Real.sqrt ((p.1 - (-20.0, 0.0).1) ^ 2 + (p.2 - (-20.0, 0.0).2) ^ 2) = 20.0) ∧
     (∀ i : ℕ, arcThetaAt 0.0 0.5 true 160 (i + 1) - arcThetaAt 0.0 0.5 true 160 i =
       (arcTheta1 0.0 0.5 true - 0.0) / ((160 : ℝ) - 1)) ∧
     arcThetaAt 0.0 0.5 true 160 0 = 0.0 ∧
     arcThetaAt 0.0 0.5 true 160 (160 - 1) = arcTheta1 0.0 0.5 true ∧
     (true = true → arcTheta1 0.0 0.5 true = 0.5) ∧
     (true = false → arcTheta1 0.0 0.5 true = 0.0 - (0.5 - 0.0))) :=
  ⟨⟨by norm_num, by norm_num⟩,
   arc_radius_spacing_sweep (-20.0, 0.0) 20.0 0.0 0.5 true 160 (by norm_num) (by norm_num)⟩

end CloudChamber
